import Mathlib

/-!
Verification development for the Space-Biology-Knowledge-Engine
publication-search backend (`src/main.py`).

The embedding models Python strings as lists of characters (`PyStr`),
the JSON abstracts cache as an association list, and the external
collaborators (the HTTP stack, BeautifulSoup, pandas, scikit-learn) as
explicit inputs: a fetch outcome per URL, a parsed-page value carrying
the selector texts and paragraph texts, and the cosine-similarity
vector produced by the fitted TF-IDF model.  Everything the repository
code itself does (caching, truncation, corpus assembly, ranking,
summary generation, endpoint dispatch) is translated directly from
`src/main.py`.
-/

namespace SpaceBio

/-- Python strings are modelled as lists of characters. -/
abbrev PyStr := List Char

/-- Conversion from a Lean string literal to the Python-string model. -/
def pyStr (s : String) : PyStr := s.toList

/-- The in-memory abstracts cache (`self.abstracts_cache`), a Python dict
modelled as an association list from URL to abstract text. -/
abbrev Cache := List (PyStr × PyStr)

/-- Python dict lookup `cache[url]` / `url in cache` (source line 103). -/
def cacheGet : Cache → PyStr → Option PyStr
  | [], _ => none
  | (k, w) :: t, u => if k = u then some w else cacheGet t u

/-- Python dict assignment `cache[url] = text` (source lines 145, 150):
overwrites an existing binding, otherwise appends a new one. -/
def cacheSet : Cache → PyStr → PyStr → Cache
  | [], u, v => [(u, v)]
  | (k, w) :: t, u, v => if k = u then (u, v) :: t else (k, w) :: cacheSet t u v

/-- The parsed remote page as produced by BeautifulSoup, abstracted to
what `get_abstract` reads from it: for each of the five CSS selectors
(source lines 120-126), `none` when `select_one` finds no element and
`some t` when it finds an element whose `get_text(strip=True)` is `t`
(possibly empty); plus the `get_text(strip=True)` of every `<p>` element
(source line 137). -/
structure Page where
  selectorTexts : List (Option PyStr)
  paragraphs : List PyStr
deriving DecidableEq

/-- Outcome of the HTTP GET at source line 114: `failure` covers a
transport error or a non-success status (`raise_for_status`), `success`
carries the parsed page. -/
inductive FetchOutcome where
  | failure
  | success (page : Page)
deriving DecidableEq

/-- Python `' '.join(parts)` generalised to any separator. -/
def pyJoin (sep : PyStr) (parts : List PyStr) : PyStr := List.intercalate sep parts

/-- Abstract extraction from a fetched page (source lines 128-139):
take the text of the first selector that matched an element (even if
that text is empty); if the resulting text is empty, fall back to
joining the texts of the first three paragraphs with spaces. -/
def extractAbstract (p : Page) : PyStr :=
  let fromSelectors : PyStr :=
    match p.selectorTexts.findSome? id with
    | some t => t
    | none => []
  if fromSelectors = [] then
    match p.paragraphs with
    | [] => []
    | _ :: _ => pyJoin (pyStr " ") (p.paragraphs.take 3)
  else fromSelectors

/-- Length-limiting of the extracted abstract (source lines 142-143):
text longer than 1000 characters is cut to its first 1000 characters
with `"..."` appended; shorter text is returned as-is. -/
def truncateAbstract (s : PyStr) : PyStr :=
  if 1000 < s.length then s.take 1000 ++ pyStr "..." else s

/-- Result of one `get_abstract` call: the returned text, the cache
after the call, and the number of HTTP requests attempted. -/
structure FetchRes where
  text : PyStr
  cache : Cache
  calls : Nat
deriving DecidableEq

/-- `PublicationSearch.get_abstract` (source lines 101-151).  A cached
URL is answered from the cache with no network activity; otherwise one
HTTP request is attempted: on failure the empty string is cached and
returned, on success the extracted, truncated abstract is cached and
returned.  The Python `try`/`except Exception` makes the function total:
every failure path degrades to the empty string. -/
def get_abstract (cache : Cache) (url : PyStr) (outcome : FetchOutcome) : FetchRes :=
  match cacheGet cache url with
  | some t => ⟨t, cache, 0⟩
  | none =>
    match outcome with
    | .failure => ⟨[], cacheSet cache url [], 1⟩
    | .success page =>
      let t := truncateAbstract (extractAbstract page)
      ⟨t, cacheSet cache url t, 1⟩

/-- One row of the loaded corpus dataframe after `load_data` has added
the derived columns (source lines 58-59): `abstract` is the resolved
abstract text and `search_text` is `title + " " + abstract`. -/
structure LoadedRow where
  title : PyStr
  url : PyStr
  abstract : PyStr
  search_text : PyStr
deriving DecidableEq

instance : Inhabited LoadedRow := ⟨⟨[], [], [], []⟩⟩

/-- Result of resolving abstracts for a whole corpus: the loaded rows,
the final in-memory cache, and the total number of HTTP requests. -/
structure LoadOut where
  rows : List LoadedRow
  cache : Cache
  fetches : Nat
deriving DecidableEq

/-- The abstract-resolution loop of `load_data` (source lines 58-59):
`self.df['abstract'] = self.df['url'].apply(self.get_abstract)` followed
by the derivation of `search_text`.  The records are `(title, url)`
pairs; `oracle` gives the network outcome for each URL that is actually
fetched; the cache is threaded through the calls in row order. -/
def loadRows (oracle : PyStr → FetchOutcome) : List (PyStr × PyStr) → Cache → LoadOut
  | [], c => ⟨[], c, 0⟩
  | (t, u) :: rest, c =>
    let r := get_abstract c u (oracle u)
    let out := loadRows oracle rest r.cache
    ⟨⟨t, u, r.text, t ++ (' ' :: r.text)⟩ :: out.rows, out.cache, r.calls + out.fetches⟩

/-- Python `str.lower()` (ASCII-relevant part, as used on the titles). -/
def pyLower (s : PyStr) : PyStr := s.map Char.toLower

/-- Python `str.strip()`: remove leading and trailing whitespace. -/
def pyStrip (s : PyStr) : PyStr :=
  ((s.dropWhile Char.isWhitespace).reverse.dropWhile Char.isWhitespace).reverse

/-- Whether `pat` occurs at the start of `s` (helper for the Python
substring test). -/
def headMatch : PyStr → PyStr → Bool
  | _, [] => true
  | [], _ :: _ => false
  | a :: s, b :: t => a == b && headMatch s t

/-- Python `pat in s` substring containment. -/
def occursIn (pat : PyStr) : PyStr → Bool
  | [] => headMatch [] pat
  | a :: t => headMatch (a :: t) pat || occursIn pat t

/-- Python `s.split(sep)` for a one-character separator: split on every
occurrence, keeping empty pieces (so a string of n separators yields
n+1 empty pieces). -/
def pySplitChar (sep : Char) (s : PyStr) : List PyStr :=
  s.splitOn sep

/-- The `space_keywords` list (source line 223). -/
def space_keywords : List PyStr :=
  [pyStr "space", pyStr "microgravity", pyStr "radiation", pyStr "cosmic",
   pyStr "astronaut", pyStr "mission"]

/-- The `biology_keywords` list (source line 224). -/
def biology_keywords : List PyStr :=
  [pyStr "cell", pyStr "tissue", pyStr "organ", pyStr "growth",
   pyStr "development", pyStr "metabolism", pyStr "gene"]

/-- The `effect_keywords` list (source line 225). -/
def effect_keywords : List PyStr :=
  [pyStr "effect", pyStr "impact", pyStr "response", pyStr "adaptation",
   pyStr "change", pyStr "alteration"]

/-- The `main_focus` label list built from the lowercased title
(source lines 228-234). -/
def main_focus (title_lower : PyStr) : List PyStr :=
  (if space_keywords.any (fun kw => occursIn kw title_lower)
     then [pyStr "space environment"] else [])
  ++ (if biology_keywords.any (fun kw => occursIn kw title_lower)
     then [pyStr "biological systems"] else [])
  ++ (if effect_keywords.any (fun kw => occursIn kw title_lower)
     then [pyStr "physiological effects"] else [])

/-- The focus phrase interpolated into the key-findings summary:
`', '.join(main_focus) if main_focus else 'space biology'`
(source line 242). -/
def focusLabel (mf : List PyStr) : PyStr :=
  if mf = [] then pyStr "space biology" else pyJoin (pyStr ", ") mf

/-- `PublicationSearch._generate_rule_based_summary` (source lines
213-248).  When the abstract is truthy and longer than 50 characters,
the first two `'.'`-separated pieces are rejoined with `'. '` and
stripped; a non-empty result yields the "Key findings" summary.
Otherwise (including when that extract strips to empty) the summary
falls back to the focus-based or generic template.  The query argument
is lowercased by the source but never used further. -/
def rule_based_summary (title abstract query : PyStr) : PyStr :=
  let title_lower := pyLower title
  let mf := main_focus title_lower
  let keyBranch : Option PyStr :=
    if abstract ≠ [] ∧ 50 < abstract.length then
      let key_findings := pyStrip (pyJoin (pyStr ". ") ((pySplitChar '.' abstract).take 2))
      if key_findings ≠ [] then
        some (pyStr "Key findings: " ++ key_findings ++
          pyStr ". This research contributes to understanding " ++ focusLabel mf ++ pyStr ".")
      else none
    else none
  match keyBranch with
  | some s => s
  | none =>
    if mf ≠ [] then
      pyStr "This study examines " ++ pyJoin (pyStr ", ") mf ++
        pyStr " in space conditions. The research provides valuable data for space exploration planning and biological understanding."
    else
      pyStr "This NASA research investigates biological responses to space environments. The findings contribute to our understanding of life in space and future mission planning."

/-- `PublicationSearch._generate_summary` together with
`_generate_ai_summary` (source lines 181-211).  `client` models the
`openai_client` attribute (`none` when the attribute is absent or
`None`); `aiResp` models the outcome of the chat-completion call
(`none` = the call raised, in which case the code falls back to the
rule-based summary).  The boolean records whether any network request
was issued. -/
def generate_summary (client : Option Unit) (aiResp : Option PyStr)
    (title abstract query : PyStr) : PyStr × Bool :=
  match client with
  | some _ =>
    match aiResp with
    | some text => (pyStrip text, true)
    | none => (rule_based_summary title abstract query, true)
  | none => (rule_based_summary title abstract query, false)

/-- The similarity score of corpus position `i`, read from the cosine
similarity vector (`similarities[idx]`, source lines 162, 169, 174).
Similarity values are modelled as rationals. -/
def simVal (sims : List ℚ) (i : Nat) : ℚ := sims.getD i 0

/-- The strict order in which `np.argsort` (modelled with its
deterministic `stable` kind) lists positions: ascending by similarity
value, ties by ascending position. -/
def rankLt (sims : List ℚ) (i j : Nat) : Prop :=
  simVal sims i < simVal sims j ∨ (simVal sims i = simVal sims j ∧ i < j)

instance (sims : List ℚ) (i j : Nat) : Decidable (rankLt sims i j) := by
  unfold rankLt
  infer_instance

/-- Insertion of a position into an argsort-ordered list. -/
def insertAsc (sims : List ℚ) (i : Nat) : List Nat → List Nat
  | [] => [i]
  | j :: t => if rankLt sims i j then i :: j :: t else j :: insertAsc sims i t

/-- `np.argsort(similarities)` (source line 165): the positions
`0 .. n-1` sorted ascending by similarity value, ties by position. -/
def argsortAsc (sims : List ℚ) : List Nat :=
  (List.range sims.length).foldr (insertAsc sims) []

/-- Python/NumPy slicing `l[:k]` for an arbitrary (possibly negative)
integer bound `k` (source line 165, `[:top_k]`): a negative bound keeps
everything except the last `|k|` elements. -/
def pySliceTo (k : Int) (l : List Nat) : List Nat :=
  if 0 ≤ k then l.take k.toNat else l.take (l.length - k.natAbs)

/-- `top_indices = np.argsort(similarities)[::-1][:top_k]`
(source line 165). -/
def top_indices (sims : List ℚ) (top_k : Int) : List Nat :=
  pySliceTo top_k (argsortAsc sims).reverse

/-- The corpus positions that make it into the result list: the sliced
ranking filtered to strictly positive similarity (source lines 168-169). -/
def rankedHits (sims : List ℚ) (top_k : Int) : List Nat :=
  (top_indices sims top_k).filter (fun i => decide (0 < simVal sims i))

/-- One entry of the list returned by `search_papers`
(source lines 171-176). -/
structure SearchResult where
  title : PyStr
  url : PyStr
  similarity_score : ℚ
  summary : PyStr
deriving DecidableEq

/-- The `PublicationSearch` engine state that the search path reads:
`df` (`None` until a CSV was read), whether the `vectorizer` attribute
has been assigned (source line 62), the fitted TF-IDF matrix — modelled
by the list of `search_text` inputs it was fitted on, `none` when
`fit_transform` failed or never ran — and the in-memory abstracts
cache. -/
structure Engine where
  df : Option (List LoadedRow)
  vectorizerSet : Bool
  tfidf : Option (List PyStr)
  cache : Cache

/-- The engine as constructed (source lines 36-41, 260). -/
def initEngine : Engine := ⟨none, false, none, []⟩

/-- Construction of one result dict (source lines 170-176). -/
def mkSearchResult (rows : List LoadedRow) (sims : List ℚ) (query : PyStr)
    (client : Option Unit) (aiResp : Option PyStr) (i : Nat) : SearchResult :=
  let p := rows.getD i default
  { title := p.title
    url := p.url
    similarity_score := simVal sims i
    summary := (generate_summary client aiResp p.title p.abstract query).1 }

/-- `PublicationSearch.search_papers` (source lines 153-179).  The
TF-IDF projection of the query and the cosine similarities are computed
by scikit-learn; the resulting similarity vector is the `sims` input.
An engine whose `df` or `vectorizer` is `None` returns `[]`; an engine
whose vectorizer exists but was never successfully fitted raises
(scikit-learn `NotFittedError` from `transform`), modelled as
`Except.error`. -/
def search_papers (st : Engine) (sims : List ℚ) (query : PyStr)
    (client : Option Unit) (aiResp : Option PyStr) (top_k : Int) :
    Except Unit (List SearchResult) :=
  match st.df, st.vectorizerSet with
  | none, _ => Except.ok []
  | some _, false => Except.ok []
  | some rows, true =>
    match st.tfidf with
    | none => Except.error ()
    | some _ =>
      Except.ok ((rankedHits sims top_k).map (mkSearchResult rows sims query client aiResp))

/-- Column-name normalization in `load_data` (source lines 49-52):
only when a column literally named `Title` exists is the rename
`{'Title': 'title', 'Link': 'url'}` applied (pandas `rename` ignores
absent keys and leaves other columns alone). -/
def normalize_columns (cols : List PyStr) : List PyStr :=
  if pyStr "Title" ∈ cols then
    cols.map (fun c =>
      if c = pyStr "Title" then pyStr "title"
      else if c = pyStr "Link" then pyStr "url"
      else c)
  else cols

/-- Outcome of `pd.read_csv` (source line 46).
`failure`: `read_csv` itself raised (file unreadable or unparseable), so
`self.df` is never assigned.
`parsed cols records`: the CSV was read into a dataframe whose raw
header list is `cols` (column normalization, lines 49-52, is applied by
`load_data`); `records` gives each row's title and URL cells and is
consulted only on the paths where the corresponding normalized column
exists.  A parsed frame whose normalized headers lack `url` or `title`
makes `load_data` raise `KeyError` at line 58 resp. 59, AFTER `self.df`
was assigned at line 46.
`ok records` abbreviates the common well-formed case of `parsed` with
the header list elided (both required columns present);
`load_data_parsed_ok` proves the two agree. -/
inductive CsvRead where
  | failure
  | ok (records : List (PyStr × PyStr))
  | parsed (cols : List PyStr) (records : List (PyStr × PyStr))

/-- Outcome of reading the persisted cache file (source lines 81-90):
`missing` (file absent — in-memory cache kept), `corrupt` (read or parse
error — cache reset to empty), or the parsed mapping. -/
inductive CacheRead where
  | missing
  | corrupt
  | ok (c : Cache)

/-- `PublicationSearch.load_abstracts_cache` (source lines 81-90). -/
def load_abstracts_cache (current : Cache) : CacheRead → Cache
  | .missing => current
  | .corrupt => []
  | .ok c => c

/-- The tail of `load_data` once the required columns are known present
(source lines 58-79): resolve abstracts, derive search texts, construct
the vectorizer (line 62) and fit it (line 71); a fitting failure
re-raises with `df` set and the vectorizer constructed but unfitted. -/
def load_data_fitted (fitOk : List PyStr → Bool) (oracle : PyStr → FetchOutcome)
    (recs : List (PyStr × PyStr)) (c0 : Cache) : Engine × Bool :=
  if fitOk ((loadRows oracle recs c0).rows.map (fun r => r.search_text)) then
    (⟨some (loadRows oracle recs c0).rows, true,
      some ((loadRows oracle recs c0).rows.map (fun r => r.search_text)),
      (loadRows oracle recs c0).cache⟩, false)
  else
    (⟨some (loadRows oracle recs c0).rows, true, none,
      (loadRows oracle recs c0).cache⟩, true)

/-- `PublicationSearch.load_data` (source lines 43-79) as a state
transformer.  `fitOk` models whether scikit-learn's `fit_transform`
succeeds on the given search texts (it raises on an empty or degenerate
vocabulary).  The boolean result records whether `load_data` re-raised
an exception (source line 79).

Failure ordering, as in the source: a `read_csv` failure re-raises with
the state untouched (`df` still `None`); otherwise `self.df` is assigned
at line 46 and STAYS assigned on every later failure.  With the
normalized headers lacking `url`, line 58 raises `KeyError` before any
fetch and before the vectorizer exists; with `url` present but `title`
absent, line 58 first resolves every abstract (mutating the in-memory
cache) and line 59 then raises, still before the vectorizer exists.  In
both aborted states the `df` payload is never read again — the
`vectorizer is None` test at line 155 short-circuits `search_papers`
first — so the model stores an inert approximation of the partially
built frame.  A fitting failure (inside `load_data_fitted`) re-raises
with `df` set and the vectorizer constructed but unfitted. -/
def load_data (fitOk : List PyStr → Bool) (oracle : PyStr → FetchOutcome)
    (csv : CsvRead) (cr : CacheRead) (st : Engine) : Engine × Bool :=
  match csv with
  | .failure => (st, true)
  | .ok recs => load_data_fitted fitOk oracle recs (load_abstracts_cache st.cache cr)
  | .parsed cols recs =>
    if pyStr "url" ∈ normalize_columns cols ∧ pyStr "title" ∈ normalize_columns cols then
      load_data_fitted fitOk oracle recs (load_abstracts_cache st.cache cr)
    else if pyStr "url" ∈ normalize_columns cols then
      (⟨some (loadRows oracle recs (load_abstracts_cache st.cache cr)).rows, false, none,
        (loadRows oracle recs (load_abstracts_cache st.cache cr)).cache⟩, true)
    else
      (⟨some (recs.map (fun r => ⟨r.1, r.2, [], []⟩)), false, none,
        load_abstracts_cache st.cache cr⟩, true)

/-- The JSON payload of the `/search` endpoint, reduced to the fields
the error-handling contract is about: the optional `error` message and
the `results` list (the successful payload also echoes the query and a
result count, both derived from these). -/
structure ApiResponse where
  error : Option PyStr
  results : List SearchResult
deriving DecidableEq

/-- The unloaded-engine error message (source line 324). -/
def noDataMsg : PyStr := pyStr "No data loaded. Please ensure the CSV file is available."

/-- The caught-exception error message (source line 339); the source
appends `str(e)`, which this model leaves out. -/
def searchFailedMsg : PyStr := pyStr "Search failed: "

/-- The `/search` endpoint `search_publications` (source lines 312-341):
an unloaded engine answers with an explicit error payload; an exception
escaping `search_papers` is caught and also turned into an error
payload; otherwise the results are returned successfully. -/
def search_publications (st : Engine) (sims : List ℚ) (query : PyStr)
    (client : Option Unit) (aiResp : Option PyStr) (top_k : Int) : ApiResponse :=
  if st.df.isNone then ⟨some noDataMsg, []⟩
  else
    match search_papers st sims query client aiResp top_k with
    | Except.ok rs => ⟨none, rs⟩
    | Except.error _ => ⟨some searchFailedMsg, []⟩

theorem cacheGet_set_self (c : Cache) (u v : PyStr) :
    cacheGet (cacheSet c u v) u = some v := by
  induction c with
  | nil => simp [cacheSet, cacheGet]
  | cons hd t ih =>
    obtain ⟨k, w⟩ := hd
    by_cases h : k = u
    · simp [cacheSet, h, cacheGet]
    · simp [cacheSet, h, cacheGet, ih]

theorem cacheGet_set_ne (c : Cache) (u v w : PyStr) (h : w ≠ u) :
    cacheGet (cacheSet c u v) w = cacheGet c w := by
  induction c with
  | nil => simp [cacheSet, cacheGet, Ne.symm h]
  | cons hd t ih =>
    obtain ⟨k, x⟩ := hd
    by_cases hk : k = u
    · subst hk
      simp [cacheSet, cacheGet, Ne.symm h]
    · simp [cacheSet, hk, cacheGet, ih]

theorem get_abstract_cached_after (c : Cache) (u : PyStr) (o : FetchOutcome) :
    cacheGet (get_abstract c u o).cache u = some (get_abstract c u o).text := by
  unfold get_abstract
  cases h : cacheGet c u with
  | some t => simp [h]
  | none =>
    cases o with
    | failure => simp [h, cacheGet_set_self]
    | success page => simp [h, cacheGet_set_self]

theorem get_abstract_preserves (c : Cache) (u w : PyStr) (o : FetchOutcome) (v : PyStr)
    (hw : cacheGet c w = some v) :
    cacheGet (get_abstract c u o).cache w = some v := by
  unfold get_abstract
  cases h : cacheGet c u with
  | some t => simpa [h] using hw
  | none =>
    have hne : w ≠ u := by
      intro hh
      rw [hh, h] at hw
      exact Option.noConfusion hw
    cases o with
    | failure => simpa [h, cacheGet_set_ne _ _ _ _ hne] using hw
    | success page => simpa [h, cacheGet_set_ne _ _ _ _ hne] using hw

theorem loadRows_preserves (oracle : PyStr → FetchOutcome) (rs : List (PyStr × PyStr))
    (c : Cache) (w v : PyStr) (hw : cacheGet c w = some v) :
    cacheGet (loadRows oracle rs c).cache w = some v := by
  induction rs generalizing c with
  | nil => simpa [loadRows] using hw
  | cons hd rest ih =>
    obtain ⟨t, u⟩ := hd
    simpa [loadRows] using ih _ (get_abstract_preserves c u w (oracle u) v hw)

/-- After a load, the final cache maps every processed URL to exactly the
abstract text recorded in its row. -/
theorem loadRows_cache_complete (oracle : PyStr → FetchOutcome) (rs : List (PyStr × PyStr))
    (c : Cache) :
    ∀ row ∈ (loadRows oracle rs c).rows,
      cacheGet (loadRows oracle rs c).cache row.url = some row.abstract := by
  induction rs generalizing c with
  | nil => simp [loadRows]
  | cons hd rest ih =>
    obtain ⟨t, u⟩ := hd
    intro row hrow
    rw [loadRows] at hrow ⊢
    rcases List.mem_cons.mp hrow with rfl | htail
    · exact loadRows_preserves oracle rest _ _ _ (get_abstract_cached_after c u (oracle u))
    · exact ih _ row htail

/-- A cache hit answers `get_abstract` immediately: the cached text is
returned unchanged, the cache is untouched, and no HTTP request is made
(source lines 103-104). -/
theorem get_abstract_hit (c : Cache) (u t : PyStr) (o : FetchOutcome)
    (h : cacheGet c u = some t) : get_abstract c u o = ⟨t, c, 0⟩ := by
  unfold get_abstract
  simp [h]

/-- Loading the same records a second time, starting from the cache the
first load produced, touches the network zero times and reproduces the
same rows and the same cache — for any network behaviour on either load. -/
theorem loadRows_idempotent (o1 o2 : PyStr → FetchOutcome) (rs : List (PyStr × PyStr))
    (c : Cache) :
    loadRows o2 rs (loadRows o1 rs c).cache =
      ⟨(loadRows o1 rs c).rows, (loadRows o1 rs c).cache, 0⟩ := by
  induction rs generalizing c with
  | nil => simp [loadRows]
  | cons hd rest ih =>
    obtain ⟨t, u⟩ := hd
    have hcached : cacheGet (loadRows o1 ((t, u) :: rest) c).cache u =
        some (get_abstract c u (o1 u)).text := by
      rw [loadRows]
      exact loadRows_preserves o1 rest _ _ _ (get_abstract_cached_after c u (o1 u))
    rw [loadRows] at hcached ⊢
    rw [loadRows]
    simp only [get_abstract_hit _ _ _ (o2 u) hcached]
    simp [ih]

theorem rankLt_trans {sims : List ℚ} {a b c : Nat}
    (h1 : rankLt sims a b) (h2 : rankLt sims b c) : rankLt sims a c := by
  rcases h1 with h | ⟨he, hi⟩ <;> rcases h2 with h' | ⟨he', hi'⟩
  · exact Or.inl (lt_trans h h')
  · exact Or.inl (he' ▸ h)
  · exact Or.inl (he ▸ h')
  · exact Or.inr ⟨he.trans he', lt_trans hi hi'⟩

theorem rankLt_of_not {sims : List ℚ} {i j : Nat}
    (h : ¬ rankLt sims i j) (hne : i ≠ j) : rankLt sims j i := by
  rcases lt_trichotomy (simVal sims i) (simVal sims j) with hlt | heq | hgt
  · exact absurd (Or.inl hlt) h
  · have hij : ¬ i < j := fun hij => h (Or.inr ⟨heq, hij⟩)
    exact Or.inr ⟨heq.symm, by omega⟩
  · exact Or.inl hgt

theorem mem_insertAsc {sims : List ℚ} {i x : Nat} {l : List Nat} :
    x ∈ insertAsc sims i l ↔ x = i ∨ x ∈ l := by
  induction l with
  | nil => simp [insertAsc]
  | cons j t ih =>
    rw [insertAsc]
    by_cases h : rankLt sims i j
    · rw [if_pos h]
      simp [List.mem_cons]
    · rw [if_neg h]
      simp only [List.mem_cons, ih]
      tauto

theorem pairwise_insertAsc {sims : List ℚ} {i : Nat} {l : List Nat}
    (hl : l.Pairwise (rankLt sims)) (hi : i ∉ l) :
    (insertAsc sims i l).Pairwise (rankLt sims) := by
  induction l with
  | nil => simp [insertAsc]
  | cons j t ih =>
    rcases List.pairwise_cons.mp hl with ⟨hj, ht⟩
    have hij : i ≠ j := fun h => hi (h ▸ List.mem_cons_self j t)
    have hit : i ∉ t := fun h => hi (List.mem_cons_of_mem _ h)
    by_cases h : rankLt sims i j
    · rw [insertAsc, if_pos h]
      refine List.pairwise_cons.mpr ⟨?_, hl⟩
      intro x hx
      rcases List.mem_cons.mp hx with rfl | hxt
      · exact h
      · exact rankLt_trans h (hj x hxt)
    · rw [insertAsc, if_neg h]
      refine List.pairwise_cons.mpr ⟨?_, ih ht hit⟩
      intro x hx
      rcases mem_insertAsc.mp hx with rfl | hxt
      · exact rankLt_of_not h hij
      · exact hj x hxt

theorem argsort_foldr_spec (sims : List ℚ) :
    ∀ l : List Nat, l.Nodup →
      (l.foldr (insertAsc sims) []).Pairwise (rankLt sims) ∧
      (∀ x ∈ l.foldr (insertAsc sims) [], x ∈ l) := by
  intro l
  induction l with
  | nil => simp
  | cons i t ih =>
    intro hnd
    rcases List.nodup_cons.mp hnd with ⟨hit, hnt⟩
    rcases ih hnt with ⟨hp, hmem⟩
    have hinot : i ∉ t.foldr (insertAsc sims) [] := fun h => hit (hmem i h)
    rw [List.foldr_cons]
    constructor
    · exact pairwise_insertAsc hp hinot
    · intro x hx
      rcases mem_insertAsc.mp hx with rfl | hxt
      · exact List.mem_cons_self _ _
      · exact List.mem_cons_of_mem _ (hmem x hxt)

theorem pairwise_argsortAsc (sims : List ℚ) :
    (argsortAsc sims).Pairwise (rankLt sims) :=
  (argsort_foldr_spec sims _ (List.nodup_range _)).1

theorem length_insertAsc (sims : List ℚ) (i : Nat) (l : List Nat) :
    (insertAsc sims i l).length = l.length + 1 := by
  induction l with
  | nil => simp [insertAsc]
  | cons j t ih =>
    rw [insertAsc]
    by_cases h : rankLt sims i j
    · rw [if_pos h]
      simp
    · rw [if_neg h]
      simp [ih]

theorem length_argsortAsc (sims : List ℚ) :
    (argsortAsc sims).length = sims.length := by
  unfold argsortAsc
  have h : ∀ l : List Nat, (l.foldr (insertAsc sims) []).length = l.length := by
    intro l
    induction l with
    | nil => rfl
    | cons i t ih =>
      rw [List.foldr_cons, length_insertAsc, ih]
      simp
  rw [h, List.length_range]

/-- The hit list is sorted strictly: descending similarity, ties by
descending corpus position (the reversal of the stable argsort order). -/
theorem pairwise_rankedHits (sims : List ℚ) (k : Int) :
    (rankedHits sims k).Pairwise (fun i j => rankLt sims j i) := by
  have h1 : ((argsortAsc sims).reverse).Pairwise (fun i j => rankLt sims j i) := by
    rw [List.pairwise_reverse]
    exact pairwise_argsortAsc sims
  have h2 : List.Sublist (top_indices sims k) ((argsortAsc sims).reverse) := by
    unfold top_indices pySliceTo
    split <;> exact List.take_sublist _ _
  have h3 : List.Sublist (rankedHits sims k) (top_indices sims k) :=
    List.filter_sublist _
  exact List.Pairwise.sublist (h3.trans h2) h1

theorem rankedHits_pos {sims : List ℚ} {k : Int} {i : Nat}
    (h : i ∈ rankedHits sims k) : 0 < simVal sims i := by
  have := List.of_mem_filter h
  simpa using this

theorem rankedHits_length_le {sims : List ℚ} {k : Int} (hk : 0 ≤ k) :
    (rankedHits sims k).length ≤ k.toNat := by
  calc (rankedHits sims k).length
      ≤ (top_indices sims k).length := List.length_filter_le _ _
    _ ≤ k.toNat := by
        unfold top_indices pySliceTo
        rw [if_pos hk]
        exact List.length_take_le _ _

theorem rankedHits_length_le_neg {sims : List ℚ} {k : Int} (hk : k < 0) :
    (rankedHits sims k).length ≤ sims.length - k.natAbs := by
  calc (rankedHits sims k).length
      ≤ (top_indices sims k).length := List.length_filter_le _ _
    _ ≤ sims.length - k.natAbs := by
        unfold top_indices pySliceTo
        rw [if_neg (by omega)]
        rw [List.length_take, List.length_reverse, length_argsortAsc]
        omega

/-- C4: whenever an actual HTTP fetch for a URL fails, `get_abstract`
catches the failure, stores the empty string in the abstracts cache
under that URL, and returns the empty string (the model is a total
function, so no exception escapes `get_abstract`). -/
theorem claim4_fetch_failure_caches_empty (cache : Cache) (url : PyStr)
    (h : cacheGet cache url = none) :
    get_abstract cache url FetchOutcome.failure = ⟨[], cacheSet cache url [], 1⟩ ∧
    cacheGet (get_abstract cache url FetchOutcome.failure).cache url = some [] ∧
    (get_abstract cache url FetchOutcome.failure).text = [] := by
  unfold get_abstract
  simp [h, cacheGet_set_self]

/-- Witness for C4 at a concrete uncached URL. -/
theorem claim4_witness :
    get_abstract [] (pyStr "https://x/1") FetchOutcome.failure
        = ⟨[], cacheSet [] (pyStr "https://x/1") [], 1⟩ ∧
    cacheGet (get_abstract [] (pyStr "https://x/1") FetchOutcome.failure).cache
        (pyStr "https://x/1") = some [] ∧
    (get_abstract [] (pyStr "https://x/1") FetchOutcome.failure).text = [] :=
  claim4_fetch_failure_caches_empty [] (pyStr "https://x/1") rfl

/-- C10: after any `get_abstract` call the queried URL is a cache key
bound to exactly the returned text, and no other URL's binding is
created, removed or modified. -/
theorem claim10_cache_invariant (cache : Cache) (url : PyStr) (o : FetchOutcome) :
    cacheGet (get_abstract cache url o).cache url = some (get_abstract cache url o).text ∧
    ∀ v, v ≠ url → cacheGet (get_abstract cache url o).cache v = cacheGet cache v := by
  refine ⟨get_abstract_cached_after cache url o, ?_⟩
  intro v hv
  unfold get_abstract
  cases h : cacheGet cache url with
  | some t => simp [h]
  | none =>
    cases o with
    | failure => simp [h, cacheGet_set_ne _ _ _ _ hv]
    | success page => simp [h, cacheGet_set_ne _ _ _ _ hv]

/-- Witness for C10 at a concrete input with a distinct other URL. -/
theorem claim10_witness :
    cacheGet (get_abstract [] (pyStr "u") FetchOutcome.failure).cache (pyStr "w")
        = cacheGet [] (pyStr "w") ∧
    cacheGet (get_abstract [] (pyStr "u") FetchOutcome.failure).cache (pyStr "u")
        = some (get_abstract [] (pyStr "u") FetchOutcome.failure).text :=
  ⟨(claim10_cache_invariant [] (pyStr "u") FetchOutcome.failure).2 (pyStr "w") (by decide),
   (claim10_cache_invariant [] (pyStr "u") FetchOutcome.failure).1⟩

/-- C5: a cached URL is answered immediately with the cached value and
zero network calls; consequently re-running the abstract-resolution
loop over the same records, starting from the cache the first run
produced, performs zero fetches and reproduces the identical rows and
cache — and hence the identical search-text sequence fed to the index
fitting — whatever the network would have answered on either run. -/
theorem claim5_cache_hit_and_idempotence :
    (∀ (cache : Cache) (url t : PyStr) (o : FetchOutcome),
      cacheGet cache url = some t → get_abstract cache url o = ⟨t, cache, 0⟩) ∧
    (∀ (o1 o2 : PyStr → FetchOutcome) (recs : List (PyStr × PyStr)) (c : Cache),
      loadRows o2 recs (loadRows o1 recs c).cache =
        ⟨(loadRows o1 recs c).rows, (loadRows o1 recs c).cache, 0⟩) ∧
    (∀ (fitOk : List PyStr → Bool) (o1 o2 : PyStr → FetchOutcome)
        (recs : List (PyStr × PyStr)) (cr : CacheRead),
      (load_data fitOk o2 (CsvRead.ok recs)
          (CacheRead.ok (load_data fitOk o1 (CsvRead.ok recs) cr initEngine).1.cache)
          initEngine).1.tfidf
        = (load_data fitOk o1 (CsvRead.ok recs) cr initEngine).1.tfidf) := by
  refine ⟨get_abstract_hit, loadRows_idempotent, ?_⟩
  intro fitOk o1 o2 recs cr
  have hc : (load_data fitOk o1 (CsvRead.ok recs) cr initEngine).1.cache
      = (loadRows o1 recs (load_abstracts_cache initEngine.cache cr)).cache := by
    by_cases h : fitOk ((loadRows o1 recs (load_abstracts_cache initEngine.cache cr)).rows.map
        (fun r => r.search_text)) <;> simp [load_data, load_data_fitted, h]
  rw [hc]
  by_cases h : fitOk ((loadRows o1 recs (load_abstracts_cache initEngine.cache cr)).rows.map
      (fun r => r.search_text)) <;>
    simp [load_data, load_data_fitted, load_abstracts_cache, loadRows_idempotent, h]

/-- Witness for C5 at a concrete cached URL. -/
theorem claim5_witness :
    get_abstract [(pyStr "u", pyStr "cached text")] (pyStr "u") FetchOutcome.failure
      = ⟨pyStr "cached text", [(pyStr "u", pyStr "cached text")], 0⟩ :=
  claim5_cache_hit_and_idempotence.1 _ _ _ _ (by decide)

/-- C6: extracted abstract text of at most 1000 characters is returned
unmodified; longer text is cut to its first 1000 characters with an
ellipsis marker appended (total length 1003); and on the successful
fetch path `get_abstract` returns exactly this truncation of the
extracted page text. -/
theorem claim6_truncation (s : PyStr) :
    (s.length ≤ 1000 → truncateAbstract s = s) ∧
    (1000 < s.length →
      truncateAbstract s = s.take 1000 ++ pyStr "..." ∧
      (truncateAbstract s).length = 1003) ∧
    (∀ (url : PyStr) (page : Page),
      (get_abstract [] url (FetchOutcome.success page)).text
        = truncateAbstract (extractAbstract page)) := by
  refine ⟨?_, ?_, ?_⟩
  · intro h
    unfold truncateAbstract
    rw [if_neg (by omega)]
  · intro h
    unfold truncateAbstract
    rw [if_pos h]
    refine ⟨rfl, ?_⟩
    have h3 : (pyStr "...").length = 3 := rfl
    rw [List.length_append, List.length_take, h3]
    omega
  · intro url page
    rfl

/-- Witness for C6 at a concrete 1001-character abstract. -/
theorem claim6_witness :
    truncateAbstract (List.replicate 1001 'a')
        = (List.replicate 1001 'a').take 1000 ++ pyStr "..." ∧
    (truncateAbstract (List.replicate 1001 'a')).length = 1003 :=
  (claim6_truncation (List.replicate 1001 'a')).2.1 (by norm_num)

/-- C9: with no generative client configured, `summarize` dispatches to
the rule-based variant, performs no network call, and its result is
independent of whatever the generative backend would have answered —
hence deterministic in the paper record and query. -/
theorem claim9_unconfigured_backend_pure (aiResp1 aiResp2 : Option PyStr)
    (title abstract query : PyStr) :
    generate_summary none aiResp1 title abstract query
        = (rule_based_summary title abstract query, false) ∧
    generate_summary none aiResp1 title abstract query
        = generate_summary none aiResp2 title abstract query :=
  ⟨rfl, rfl⟩

/-- A parsed frame whose normalized headers contain both required
columns loads exactly like the well-formed abbreviation `CsvRead.ok`. -/
theorem load_data_parsed_ok (fitOk : List PyStr → Bool) (oracle : PyStr → FetchOutcome)
    (cols : List PyStr) (recs : List (PyStr × PyStr)) (cr : CacheRead) (st : Engine)
    (h1 : pyStr "url" ∈ normalize_columns cols)
    (h2 : pyStr "title" ∈ normalize_columns cols) :
    load_data fitOk oracle (CsvRead.parsed cols recs) cr st
      = load_data fitOk oracle (CsvRead.ok recs) cr st := by
  simp [load_data, h1, h2]

/-- Counterexample to C2 as stated: a CSV that parses but lacks the
required columns (here a lone `Link` header, never renamed because no
`Title` header is present) makes `load_data` re-raise from the
`KeyError` at line 58 — a corpus-loading failure — yet `df` was already
assigned at line 46, so `/search` passes the `df is None` check and
`search_papers` returns `[]` on the `vectorizer is None` test: the
response is a SUCCESSFUL empty payload with no error message, refuting
the claimed biconditional. -/
theorem claim2_counterexample :
    (load_data (fun _ => true) (fun _ => FetchOutcome.failure)
        (CsvRead.parsed [pyStr "Link"] [(pyStr "Some paper", pyStr "https://x/1")])
        CacheRead.missing initEngine).2 = true ∧
    search_publications
        (load_data (fun _ => true) (fun _ => FetchOutcome.failure)
          (CsvRead.parsed [pyStr "Link"] [(pyStr "Some paper", pyStr "https://x/1")])
          CacheRead.missing initEngine).1
        [] (pyStr "q") none none 3
      = ⟨none, []⟩ := by
  decide

/-- C2 (amended): the search endpoint answers with an error payload
exactly when `load_data` re-raised AND either the dataframe was never
assigned (a `read_csv` failure) or the vectorizer had been constructed
(a fitting failure).  The corpus-loading failure caused by missing
required columns re-raises AFTER `df` is assigned and BEFORE the
vectorizer is constructed, and then the endpoint responds with a
successful empty payload; every network, cache-file or summary-backend
failure mode is absorbed and also yields a successful response. -/
theorem claim2_error_amended
    (fitOk : List PyStr → Bool) (oracle : PyStr → FetchOutcome)
    (csv : CsvRead) (cr : CacheRead) (sims : List ℚ) (query : PyStr)
    (client : Option Unit) (aiResp : Option PyStr) (top_k : Int) :
    ((search_publications (load_data fitOk oracle csv cr initEngine).1 sims query client
        aiResp top_k).error).isSome
      = ((load_data fitOk oracle csv cr initEngine).2
          && ((load_data fitOk oracle csv cr initEngine).1.df.isNone
            || (load_data fitOk oracle csv cr initEngine).1.vectorizerSet)) := by
  cases csv with
  | failure => rfl
  | ok recs =>
    by_cases h : fitOk ((loadRows oracle recs (load_abstracts_cache initEngine.cache cr)).rows.map
        (fun r => r.search_text)) <;>
      simp [load_data, load_data_fitted, h, search_publications, search_papers]
  | parsed cols recs =>
    by_cases hcols : pyStr "url" ∈ normalize_columns cols ∧
        pyStr "title" ∈ normalize_columns cols
    · by_cases h : fitOk ((loadRows oracle recs
          (load_abstracts_cache initEngine.cache cr)).rows.map (fun r => r.search_text)) <;>
        simp [load_data, load_data_fitted, hcols, h, search_publications, search_papers]
    · by_cases hurl : pyStr "url" ∈ normalize_columns cols
      · have htitle : pyStr "title" ∉ normalize_columns cols := fun ht => hcols ⟨hurl, ht⟩
        simp [load_data, hcols, hurl, htitle, search_publications, search_papers]
      · simp [load_data, hcols, hurl, search_publications, search_papers]

/-- C1 (amended): on a loaded corpus with a fitted index, `search_papers`
returns at most `top_k` results, all with strictly positive similarity
score, sorted by non-increasing score — with ties between equal scores
broken by DESCENDING original corpus position (the reversal of the
ascending argsort order), not ascending. -/
theorem claim1_ranking_amended (rows : List LoadedRow) (cache : Cache)
    (texts : List PyStr) (sims : List ℚ) (query : PyStr) (client : Option Unit)
    (aiResp : Option PyStr) (top_k : Int)
    (hrows : rows ≠ []) (hlen : sims.length = rows.length) (hk : 1 ≤ top_k) :
    ∃ res, search_papers ⟨some rows, true, some texts, cache⟩ sims query client aiResp top_k
        = Except.ok res ∧
      res.length ≤ top_k.toNat ∧
      (∀ r ∈ res, 0 < r.similarity_score) ∧
      (res.map (fun r => r.similarity_score)).Pairwise (fun a b => b ≤ a) ∧
      (rankedHits sims top_k).Pairwise (fun i j =>
        simVal sims j < simVal sims i ∨ (simVal sims j = simVal sims i ∧ j < i)) := by
  refine ⟨_, rfl, ?_, ?_, ?_, ?_⟩
  · rw [List.length_map]
    exact rankedHits_length_le (by omega)
  · intro r hr
    rcases List.mem_map.mp hr with ⟨i, hi, rfl⟩
    simpa [mkSearchResult] using rankedHits_pos hi
  · rw [List.map_map]
    refine (pairwise_rankedHits sims top_k).map _ ?_
    intro i j hij
    rcases hij with h | ⟨he, _⟩
    · simpa [mkSearchResult] using le_of_lt h
    · simpa [mkSearchResult] using le_of_eq he
  · exact pairwise_rankedHits sims top_k

/-- Witness for C1 on a one-record corpus with a matching query. -/
theorem claim1_witness :
    ∃ res, search_papers
        ⟨some [⟨pyStr "t", pyStr "u", pyStr "abs", pyStr "t abs"⟩], true,
          some [pyStr "t abs"], []⟩
        [(1:ℚ)] (pyStr "q") none none 1 = Except.ok res ∧
      res.length ≤ (1:Int).toNat ∧
      (∀ r ∈ res, 0 < r.similarity_score) ∧
      (res.map (fun r => r.similarity_score)).Pairwise (fun a b => b ≤ a) ∧
      (rankedHits [(1:ℚ)] 1).Pairwise (fun i j =>
        simVal [(1:ℚ)] j < simVal [(1:ℚ)] i ∨ (simVal [(1:ℚ)] j = simVal [(1:ℚ)] i ∧ j < i)) :=
  claim1_ranking_amended _ _ _ _ _ _ _ _ (by decide) (by decide) (by decide)

/-- Counterexample to C1 as stated: with two documents of equal positive
similarity and `top_k = 2`, the hit list is `[1, 0]` — equal scores are
ordered by DESCENDING corpus position, so the ascending tie-break
ordering (`i < j` for consecutive equal-score positions) fails. -/
theorem claim1_counterexample :
    rankedHits ((1:ℚ) :: (1:ℚ) :: []) 2 = [1, 0] ∧
    ¬ (rankedHits ((1:ℚ) :: (1:ℚ) :: []) 2).Pairwise (fun i j =>
        simVal ((1:ℚ) :: (1:ℚ) :: []) j < simVal ((1:ℚ) :: (1:ℚ) :: []) i ∨
        (simVal ((1:ℚ) :: (1:ℚ) :: []) j = simVal ((1:ℚ) :: (1:ℚ) :: []) i ∧ i < j)) := by
  decide

/-- C3 (amended): `top_k = 0` yields an empty result list and no error;
but a NEGATIVE `top_k` is a Python slice bound `[:top_k]`, which keeps
all but the last `|top_k|` ranked candidates, so it can return
non-empty results (still without error, and with at most
`n - |top_k|` entries). -/
theorem claim3_amended (rows : List LoadedRow) (cache : Cache) (texts : List PyStr)
    (sims : List ℚ) (query : PyStr) (client : Option Unit) (aiResp : Option PyStr) :
    search_papers ⟨some rows, true, some texts, cache⟩ sims query client aiResp 0
        = Except.ok [] ∧
    (∀ top_k : Int, top_k < 0 →
      ∃ res, search_papers ⟨some rows, true, some texts, cache⟩ sims query client aiResp top_k
          = Except.ok res ∧ res.length ≤ sims.length - top_k.natAbs) := by
  constructor
  · simp [search_papers, rankedHits, top_indices, pySliceTo]
  · intro top_k hk
    refine ⟨_, rfl, ?_⟩
    rw [List.length_map]
    exact rankedHits_length_le_neg hk

/-- Witness for C3 on a concrete one-record corpus. -/
theorem claim3_witness :
    search_papers ⟨some [⟨pyStr "t", pyStr "u", pyStr "abs", pyStr "t abs"⟩], true,
        some [pyStr "t abs"], []⟩ [(1:ℚ)] (pyStr "q") none none 0 = Except.ok [] ∧
    (∃ res, search_papers ⟨some [⟨pyStr "t", pyStr "u", pyStr "abs", pyStr "t abs"⟩], true,
        some [pyStr "t abs"], []⟩ [(1:ℚ)] (pyStr "q") none none (-1)
          = Except.ok res ∧ res.length ≤ [(1:ℚ)].length - (-1:Int).natAbs) :=
  ⟨(claim3_amended _ _ _ _ _ _ _).1, (claim3_amended _ _ _ _ _ _ _).2 (-1) (by decide)⟩

/-- Counterexample to C3 as stated: on a loaded two-record corpus where
both documents have positive similarity, `search_papers` with
`top_k = -1 ≤ 0` returns ONE result, not an empty sequence. -/
theorem claim3_counterexample :
    (search_papers
      ⟨some [⟨pyStr "a", pyStr "ua", [], pyStr "a "⟩, ⟨pyStr "b", pyStr "ub", [], pyStr "b "⟩],
        true, some [pyStr "a ", pyStr "b "], []⟩
      ((1:ℚ) :: (1:ℚ) :: []) (pyStr "q") none none (-1)).toOption.map List.length
    = some 1 := by
  decide

/-- C7 (amended): header renaming happens only when a column literally
named `Title` is present; in that case every `Title` becomes `title`,
every `Link` becomes `url`, other headers and their order are kept;
when `Title` is absent the header list is returned unchanged (so a lone
`Link` column is NOT remapped). -/
theorem claim7_rename_amended (cols : List PyStr) :
    (pyStr "Title" ∈ cols →
      normalize_columns cols
          = cols.map (fun c =>
              if c = pyStr "Title" then pyStr "title"
              else if c = pyStr "Link" then pyStr "url" else c) ∧
      pyStr "Title" ∉ normalize_columns cols ∧
      pyStr "Link" ∉ normalize_columns cols ∧
      pyStr "title" ∈ normalize_columns cols ∧
      (normalize_columns cols).length = cols.length) ∧
    (pyStr "Title" ∉ cols → normalize_columns cols = cols) := by
  constructor
  · intro h
    have hn : normalize_columns cols
        = cols.map (fun c =>
            if c = pyStr "Title" then pyStr "title"
            else if c = pyStr "Link" then pyStr "url" else c) := by
      simp [normalize_columns, h]
    refine ⟨hn, ?_, ?_, ?_, ?_⟩
    · rw [hn]
      intro hmem
      rcases List.mem_map.mp hmem with ⟨c, hc, hcx⟩
      by_cases h1 : c = pyStr "Title"
      · rw [if_pos h1] at hcx
        exact absurd hcx (by decide)
      · by_cases h2 : c = pyStr "Link"
        · rw [if_neg h1, if_pos h2] at hcx
          exact absurd hcx (by decide)
        · rw [if_neg h1, if_neg h2] at hcx
          exact h1 hcx
    · rw [hn]
      intro hmem
      rcases List.mem_map.mp hmem with ⟨c, hc, hcx⟩
      by_cases h1 : c = pyStr "Title"
      · rw [if_pos h1] at hcx
        exact absurd hcx (by decide)
      · by_cases h2 : c = pyStr "Link"
        · rw [if_neg h1, if_pos h2] at hcx
          exact absurd hcx (by decide)
        · rw [if_neg h1, if_neg h2] at hcx
          exact h2 hcx
    · rw [hn]
      exact List.mem_map.mpr ⟨pyStr "Title", h, by decide⟩
    · rw [hn, List.length_map]
  · intro h
    simp [normalize_columns, h]

/-- Witness for C7 at the canonical header pair. -/
theorem claim7_witness :
    normalize_columns [pyStr "Title", pyStr "Link"]
        = [pyStr "Title", pyStr "Link"].map (fun c =>
            if c = pyStr "Title" then pyStr "title"
            else if c = pyStr "Link" then pyStr "url" else c) ∧
    pyStr "Title" ∉ normalize_columns [pyStr "Title", pyStr "Link"] ∧
    pyStr "Link" ∉ normalize_columns [pyStr "Title", pyStr "Link"] ∧
    pyStr "title" ∈ normalize_columns [pyStr "Title", pyStr "Link"] ∧
    (normalize_columns [pyStr "Title", pyStr "Link"]).length
        = ([pyStr "Title", pyStr "Link"] : List PyStr).length :=
  (claim7_rename_amended _).1 (by decide)

/-- Counterexample to C7 as stated: a table whose headers contain `Link`
but no `Title` is left untouched — `Link` is NOT remapped to `url`. -/
theorem claim7_counterexample :
    normalize_columns [pyStr "Link"] = [pyStr "Link"] ∧
    pyStr "url" ∉ normalize_columns [pyStr "Link"] := by
  decide

/-- C8 (amended): for an abstract longer than 50 characters WHOSE
first-two-sentence extract is non-empty after whitespace-stripping,
the rule-based summary is exactly `"Key findings: "` followed by that
extract and a trailing sentence naming the focus categories found in
the title (or `"space biology"` when none matched).  When the extract
strips to empty the code falls back to the template summaries. -/
theorem claim8_key_findings_amended (title abstract query : PyStr)
    (hlen : 50 < abstract.length)
    (hkf : pyStrip (pyJoin (pyStr ". ") ((pySplitChar '.' abstract).take 2)) ≠ []) :
    rule_based_summary title abstract query
      = pyStr "Key findings: "
        ++ pyStrip (pyJoin (pyStr ". ") ((pySplitChar '.' abstract).take 2))
        ++ pyStr ". This research contributes to understanding "
        ++ focusLabel (main_focus (pyLower title)) ++ pyStr "." := by
  have habs : abstract ≠ [] := by
    intro h
    rw [h] at hlen
    simp at hlen
  simp only [rule_based_summary]
  rw [if_pos (And.intro habs hlen), if_pos hkf]

/-- Witness for C8 at the spec's plant-growth example record. -/
theorem claim8_witness :
    rule_based_summary (pyStr "Microgravity effects on plant root growth")
        (pyStr "Roots grew 20% slower under microgravity. This confirms prior hypotheses.")
        (pyStr "plant growth in space")
      = pyStr "Key findings: "
        ++ pyStrip (pyJoin (pyStr ". ") ((pySplitChar '.'
            (pyStr "Roots grew 20% slower under microgravity. This confirms prior hypotheses.")).take 2))
        ++ pyStr ". This research contributes to understanding "
        ++ focusLabel (main_focus (pyLower (pyStr "Microgravity effects on plant root growth")))
        ++ pyStr "." :=
  claim8_key_findings_amended _ _ _ (by decide) (by decide)

/-- Counterexample to C8 as stated: a 51-character all-whitespace
abstract is present and longer than 50 characters, yet the summary does
not begin with `"Key findings: "` — the extract strips to empty and the
code falls back to the generic template. -/
theorem claim8_counterexample :
    50 < (List.replicate 51 ' ' : PyStr).length ∧
    (rule_based_summary (pyStr "") (List.replicate 51 ' ') (pyStr "q")).take 14
      ≠ pyStr "Key findings: " := by
  decide

end SpaceBio
